import Mathlib

/-!
Verification of the canvasbot submission-grading daemon.

This file shallowly embeds the Rust sources (`worker.rs`, `builtin.rs`,
`canvas.rs`, `main.rs`) in Lean.  External effects (the builtin-command
registry, process spawning, Docker, HTTP transport, the filesystem) are
modelled as explicit oracles passed to the embedded functions; everything the
repository itself computes (argument substitution, control flow, message
formatting, link parsing, threshold checks, store updates) is translated
directly from the source.  A Rust panic (`expect`/`unwrap`) is modelled as
`Option.none` propagating out of the whole run.
-/

namespace Canvasbot

/-! ## TOML values and the variable store (`worker.rs`)

The pipeline's variables are a `HashMap<String, Option<toml::Value>>`.  The
spec restricts values to the scalar kinds the pipeline uses (integer, string,
boolean); the store is modelled as an association list. -/

inductive Value where
  | integer (n : Int)
  | str (s : String)
  | boolean (b : Bool)
deriving DecidableEq, Repr

/-- `toml::Value`'s `Display`: integers bare, strings quoted, booleans plain. -/
def valueToString : Value → String
  | .integer n => toString n
  | .str s => "\"" ++ s ++ "\""
  | .boolean b => if b then "true" else "false"

abbrev Store := List (String × Option Value)

/-- `str::trim_matches('\"')`: strip all leading and trailing quote chars. -/
def trimQuotes (s : String) : String :=
  String.mk (((s.data.dropWhile (· == '"')).reverse.dropWhile (· == '"')).reverse)

/-- `str::replace("var::", "")`: delete every (non-overlapping, left-to-right)
occurrence of the marker. -/
def removeMarker : List Char → List Char
  | [] => []
  | 'v' :: 'a' :: 'r' :: ':' :: ':' :: rest => removeMarker rest
  | c :: rest => c :: removeMarker rest

/-- `arg.starts_with("var::")`. -/
def hasVarMarker (s : String) : Bool :=
  match s.data with
  | 'v' :: 'a' :: 'r' :: ':' :: ':' :: _ => true
  | _ => false

/-- One argument of a command, after the `var::` substitution pass of
`Task::run`.  `none` models the panic raised by
`.expect("should have varibales")` (undeclared name) or the `.unwrap()` on a
declared-but-unset (`None`) variable. -/
def substArg (st : Store) (arg : String) : Option String :=
  if hasVarMarker arg then
    match st.lookup (String.mk (removeMarker arg.data)) with
    | none => none
    | some none => none
    | some (some v) => some (trimQuotes (valueToString v))
  else some arg

def substArgs (st : Store) : List String → Option (List String)
  | [] => some []
  | a :: rest =>
    match substArg st a with
    | none => none
    | some b =>
      match substArgs st rest with
      | none => none
      | some bs => some (b :: bs)

/-- In-place update of an existing entry; a missing key is left alone (this is
`entry(..).and_modify(..)` with no `or_insert`, and `get_mut`). -/
def storeUpdate (name : String) (v : Option Value) (st : Store) : Store :=
  st.map (fun p => if p.1 = name then (p.1, v) else p)

/-- `Worker::modify_variable`. -/
def modifyVariable (name : String) (v : Value) (st : Store) : Store :=
  storeUpdate name (some v) st

/-- The `Command::Variable` arm of `Task::run`: only operation `"+"` does
anything, and only when the variable currently holds `Some(Value::Integer _)`;
otherwise the store is untouched (the code merely logs). -/
def applyVariableCmd (operation name : String) (value : Int) (st : Store) : Store :=
  if operation = "+" then
    match st.lookup name with
    | some (some (.integer n)) => storeUpdate name (some (.integer (n + value))) st
    | _ => st
  else st

/-! ## Commands and `Task::run` (`worker.rs`) -/

inductive Command where
  | builtin (action : String) (args : Option (List String)) (abortOnFailure : Option Bool)
  | custom (action : String) (args : Option (List String)) (abortOnFailure : Option Bool)
  | varCmd (operation : String) (name : String) (value : Int)
deriving DecidableEq, Repr

/-- How a `Task::run` invocation ended: all commands completed (`passed`),
or it stopped at a failing command, returning `Ok` (`failedOk`) or `Err`
(`failedErr`) with the formatted message. -/
inductive TaskEnd where
  | passed
  | failedOk (msg : String)
  | failedErr (msg : String)
deriving DecidableEq, Repr

/-- Rust `format!("{:<w}")`: left-align, pad with spaces to width `w`. -/
def padRightStr (s : String) (w : Nat) : String :=
  s ++ String.mk (List.replicate (w - s.length) ' ')

/-- Rust `format!("{:>w}")`: right-align, pad with spaces to width `w`. -/
def padLeftStr (s : String) (w : Nat) : String :=
  String.mk (List.replicate (w - s.length) ' ') ++ s

def passedMsg (label : String) : String :=
  padRightStr label 10 ++ " " ++ padLeftStr "Passed" 20 ++ "\n"

def failMsg (label e : String) : String :=
  padRightStr label 10 ++ " " ++ padLeftStr "Failed" 20 ++ "\n" ++ e

def abortMsg (label e : String) : String :=
  padRightStr label 10 ++ " " ++ padLeftStr "Failed" 20 ++ "\n" ++ e ++ "\nTest aborted.\n"

def spawnAbortMsg (label e : String) : String :=
  label ++ " aborted due to failure: " ++ e ++ "\n"

def spawnFailMsg (label e : String) : String :=
  label ++ " execution failed due to: " ++ e ++ "\n"

/-- Substring test (Rust `str::contains`). -/
def strContains (s pat : String) : Bool :=
  decide (pat.data <:+: s.data)

def containsFailed (s : String) : Bool :=
  strContains s "Failed"

/-- The command loop of `Task::run`.  `benv i` is the outcome of
`builtin.execute` for the command at position `i` (`none` = `Ok`, `some e` =
`Err(e)`); `cenv i` is the outcome of spawning a custom command at position `i`
(`.error e` = spawn failure, `.ok (success, stdout)` = process ran).  The
result is `none` on panic (failed variable substitution), otherwise the way
the task ended together with the final store. -/
def taskRunAux (label : String) (benv : Nat → Option String)
    (cenv : Nat → Except String (Bool × String)) :
    List Command → Nat → Store → Option (TaskEnd × Store)
  | [], _, st => some (.passed, st)
  | .builtin _action args abortOnFailure :: rest, i, st =>
    match substArgs st (args.getD []) with
    | none => none
    | some _ =>
      match benv i with
      | none => taskRunAux label benv cenv rest (i + 1) st
      | some e =>
        if abortOnFailure.getD false then some (.failedErr (abortMsg label e), st)
        else some (.failedOk (failMsg label e), st)
  | .custom _action args abortOnFailure :: rest, i, st =>
    match substArgs st (args.getD []) with
    | none => none
    | some _ =>
      match cenv i with
      | .ok (success, stdout) =>
        if success then taskRunAux label benv cenv rest (i + 1) st
        else if abortOnFailure.getD false then some (.failedErr (abortMsg label stdout), st)
        else some (.failedOk (failMsg label stdout), st)
      | .error e =>
        if abortOnFailure.getD false then some (.failedErr (spawnAbortMsg label e), st)
        else some (.failedOk (spawnFailMsg label e), st)
  | .varCmd operation name value :: rest, i, st =>
    taskRunAux label benv cenv rest (i + 1) (applyVariableCmd operation name value st)

/-- Collapse a `TaskEnd` to the `Result<String, Box<dyn Error>>` that
`Task::run` actually returns. -/
def taskEndResult (label : String) : TaskEnd → Except String String
  | .passed => .ok (passedMsg label)
  | .failedOk m => .ok m
  | .failedErr m => .error m

/-- `Task::run` for a task named `name` (its display label is `[name]`). -/
def taskRun (name : String) (benv : Nat → Option String)
    (cenv : Nat → Except String (Bool × String)) (cmds : List Command) (st : Store) :
    Option (Except String String × Store) :=
  match taskRunAux ("[" ++ name ++ "]") benv cenv cmds 0 st with
  | none => none
  | some (out, st') => some (taskEndResult ("[" ++ name ++ "]") out, st')

/-- `Worker::run`: run the tasks in order against the shared store, collecting
`(name, message)` results; an `Err` from a task records the error message and
breaks the loop.  `envs j` supplies the builtin/custom oracles for task `j`. -/
def workerRunAux
    (envs : Nat → (Nat → Option String) × (Nat → Except String (Bool × String))) :
    List (String × List Command) → Nat → Store →
    Option (List (String × String) × Store)
  | [], _, st => some ([], st)
  | (name, cmds) :: rest, j, st =>
    match taskRun name (envs j).1 (envs j).2 cmds st with
    | none => none
    | some (.ok msg, st') =>
      match workerRunAux envs rest (j + 1) st' with
      | none => none
      | some (results, st'') => some ((name, msg) :: results, st'')
    | some (.error e, st') => some ([(name, e)], st')

/-- The store-mutating operations of `worker.rs`, for the key-set invariant:
`Worker::modify_variable` and the `Command::Variable` arm of `Task::run`. -/
inductive StoreOp where
  | modifyVar (name : String) (v : Value)
  | varAdd (operation : String) (name : String) (value : Int)

def applyStoreOp : StoreOp → Store → Store
  | .modifyVar name v, st => modifyVariable name v st
  | .varAdd operation name value, st => applyVariableCmd operation name value st

def applyStoreOps (ops : List StoreOp) (st : Store) : Store :=
  ops.foldl (fun s o => applyStoreOp o s) st

/-! ## The line-diff builtin (`builtin.rs`)

`diff_file` delegates the diff itself to the external `similar` crate
(`TextDiff::from_lines` with the default minimal Myers algorithm) and counts
the non-`Equal` changes.  For a minimal line diff that count is
`|old| + |new| - 2 * lcs old new`; files are modelled as their line lists. -/

/-- Longest common subsequence length of two line lists, with a fuel argument
for structural recursion; each recursive call shrinks `l₁.length + l₂.length`
by at least one, so fuel `l₁.length + l₂.length` is never exhausted. -/
def lcsFuel : Nat → List String → List String → Nat
  | _, [], _ => 0
  | _, _, [] => 0
  | 0, _, _ => 0
  | fuel + 1, a :: as, b :: bs =>
    if a = b then lcsFuel fuel as bs + 1
    else max (lcsFuel fuel as (b :: bs)) (lcsFuel fuel (a :: as) bs)

def lcs (l₁ l₂ : List String) : Nat :=
  lcsFuel (l₁.length + l₂.length) l₁ l₂

/-- Count of non-equal changes of the minimal line-based diff (`diff_file`). -/
def diffFile (old new : List String) : Nat :=
  (old.length - lcs old new) + (new.length - lcs old new)

/-- `str::parse::<usize>()`: optional leading `+`, then one or more digits,
failing on overflow past `usize::MAX` (64-bit). -/
def parseUsize (s : String) : Option Nat :=
  let digits := match s.data with
    | '+' :: rest => rest
    | cs => cs
  if digits.isEmpty then none
  else if digits.all Char.isDigit then
    let n := digits.foldl (fun acc c => acc * 10 + (c.toNat - '0'.toNat)) 0
    if n < 2 ^ 64 then some n else none
  else none

/-- `diff_file_builtin`: args are base path, submission path, threshold; `fs`
is the filesystem oracle mapping a path to its line list (`none` = read
error). -/
def diffFileBuiltin (fs : String → Option (List String)) (args : List String) :
    Except String Unit :=
  match args.head? with
  | none => .error "Base file not set"
  | some base =>
    match args.get? 1 with
    | none => .error "Submission file not set"
    | some submission =>
      match args.get? 2 with
      | none => .error "Count not specify"
      | some count =>
        match fs base with
        | none => .error "read error"
        | some old =>
          match fs submission with
          | none => .error "read error"
          | some new =>
            match parseUsize count with
            | none => .error "invalid digit found in string"
            | some threshold =>
              if diffFile old new > threshold then
                .error ("Diff count " ++ toString (diffFile old new) ++
                  " is greater than " ++ count)
              else .ok ()

/-! ## The Canvas client (`canvas.rs` / `main.rs`)

`Canvas::get_all_submissions` (`get_all_sub` in `canvas.rs` is textually
identical) pages through the submission endpoint; `Canvas::update_score` PUTs
a grade.  The fields of `Submission` the code reads are `user_id`,
`workflow_state` and (as attachment reference) `url`. -/

structure Submission where
  userId : Nat
  workflowState : String
  url : Option String
deriving DecidableEq, Repr

/-- One HTTP response of the submission source: its `Link` header (if any) and
its JSON body, already decoded to submissions. -/
structure PageResponse where
  linkHeader : Option String
  body : List Submission
deriving DecidableEq, Repr

/-- Rust `str::trim_start_matches c` / `trim_end_matches c`. -/
def trimStartMatches (c : Char) (s : String) : String :=
  String.mk (s.data.dropWhile (· == c))

def trimEndMatches (c : Char) (s : String) : String :=
  String.mk ((s.data.reverse.dropWhile (· == c)).reverse)

/-- Rust `str::trim`: strip leading and trailing whitespace. -/
def trimAscii (s : String) : String :=
  String.mk (((s.data.dropWhile Char.isWhitespace).reverse.dropWhile
    Char.isWhitespace).reverse)

/-- Rust `str::split(c)`: split at every occurrence of the character;
always yields at least one (possibly empty) part. -/
def splitOnCharAux (c : Char) : List Char → List Char → List (List Char)
  | [], acc => [acc.reverse]
  | x :: xs, acc =>
    if x = c then acc.reverse :: splitOnCharAux c xs []
    else splitOnCharAux c xs (x :: acc)

def splitOnChar (c : Char) (s : String) : List String :=
  (splitOnCharAux c s.data []).map String.mk

/-- `Canvas::get_next_link`: pick the first comma-separated part of the `Link`
header containing `rel="next"`, take the text before the first `;`, strip
angle brackets, and re-append the access token (here the full header value,
`Bearer <key>`, as the code passes `&self.header`). -/
def getNextLink (linkHeader : Option String) (accessToken : String) : Option String :=
  match linkHeader with
  | none => none
  | some linkStr =>
    match (splitOnChar ',' linkStr).find? (fun link => strContains link "rel=\"next\"") with
    | none => none
    | some link =>
      match (splitOnChar ';' link).head? with
      | none => none
      | some urlPart =>
        if strContains (trimEndMatches '>' (trimStartMatches '<' (trimAscii urlPart))) "?" then
          some (trimEndMatches '>' (trimStartMatches '<' (trimAscii urlPart)) ++
            "&access_token=" ++ accessToken)
        else
          some (trimEndMatches '>' (trimStartMatches '<' (trimAscii urlPart)) ++
            "?access_token=" ++ accessToken)

/-- The page loop of `Canvas::get_all_submissions`, run against the chain of
pages the server serves for the successive requests.  Returns the issued
requests (URL, Authorization header value) and the accumulated submission
list.  Each page's body is filtered to `workflow_state == "submitted"` and
appended; the loop follows `get_next_link` until it yields `none`. -/
def getAllSubmissionsAux (header : String) :
    String → List PageResponse → List (String × String) × List Submission
  | _, [] => ([], [])
  | url, page :: rest =>
    let filtered := page.body.filter (fun s => s.workflowState == "submitted")
    match getNextLink page.linkHeader header with
    | none => ([(url, header)], filtered)
    | some nextUrl =>
      ((url, header) :: (getAllSubmissionsAux header nextUrl rest).1,
       filtered ++ (getAllSubmissionsAux header nextUrl rest).2)

def getAllSubmissions (baseUrl header : String) (pages : List PageResponse) :
    List (String × String) × List Submission :=
  getAllSubmissionsAux header baseUrl pages

/-- Well-formedness of a served page chain: every page except the last carries
a next link, and the last does not. -/
def pageChain (header : String) : List PageResponse → Bool
  | [] => true
  | [page] => (getNextLink page.linkHeader header).isNone
  | page :: rest => (getNextLink page.linkHeader header).isSome && pageChain header rest

structure HttpResponse where
  status : Nat
deriving DecidableEq, Repr

structure SubmissionScore where
  postedGrade : Nat
deriving DecidableEq, Repr

structure Comment where
  textComment : String
deriving DecidableEq, Repr

structure ScoreUpdate where
  submission : SubmissionScore
  comment : Comment
deriving DecidableEq, Repr

/-- `Canvas::update_score`: PUT the score/comment payload; `send url header
payload` is the transport oracle (`.error` = transport failure).  The response
is returned as-is — its status code is never inspected. -/
def updateScore (send : String → String → ScoreUpdate → Except String HttpResponse)
    (baseUrl header : String) (submissionId score : Nat) (comment : String) :
    Except String HttpResponse :=
  let url := baseUrl ++ "/" ++ toString submissionId
  let scoreUpdate : ScoreUpdate := ⟨⟨score⟩, ⟨comment⟩⟩
  match send url header scoreUpdate with
  | .error e => .error e
  | .ok response => .ok response

/-! ## The per-submission sandbox lifecycle (`main.rs`)

`start_container_runner` is embedded as a trace-producing function over a
Docker/Canvas oracle: the trace records, in program order, every container
call, score report and `println!`. -/

inductive WaitOutcome where
  | finished
  | waitErr (e : String)
  | streamEnd
  | timedOut
deriving DecidableEq, Repr

structure DockerEnv where
  createOk : Bool
  startOk : Bool
  wait : WaitOutcome
  stopOk : Bool
  removeOk : Bool
  scoreOk : Bool
deriving DecidableEq, Repr

inductive Event where
  | logged (msg : String)
  | createCalled (containerName : String)
  | startCalled (containerName : String)
  | waitCalled (containerName : String)
  | stopCalled (containerName : String)
  | removeCalled (containerName : String)
  | scoreReported (userId : Nat) (score : Nat) (comment : String)
deriving DecidableEq, Repr

/-- `start_container_runner`.  Note the create-failure arm has no early
return in the source: after reporting the startup-error score the function
falls through and still starts and waits on the container.  Only the
start-failure arm returns early (skipping the final `Finish` print). -/
def startContainerRunner (env : DockerEnv) (userId : Nat) : List Event :=
  let containerName := "lab3-" ++ toString userId
  [.logged ("Start testing for user ID: " ++ toString userId),
   .createCalled containerName] ++
  (if env.createOk then []
   else [.scoreReported userId 0 "Test environment startup error"]) ++
  [.logged ("Container " ++ containerName ++ " created"),
   .startCalled containerName] ++
  if env.startOk = false then
    [.scoreReported userId 0 "Failed to start container"]
  else
    [.waitCalled containerName] ++
    (match env.wait with
     | .finished =>
       [.logged ("Container for user " ++ toString userId ++ " finished successfully")]
     | .waitErr e => [.logged ("Error waiting for container: " ++ e)]
     | .streamEnd => [.logged "wait_container stream ended unexpectedly"]
     | .timedOut =>
       [.logged ("Container for user " ++ toString userId ++ " timed out"),
        .stopCalled containerName] ++
       (if env.stopOk then [] else [.logged "Error stopping container"]) ++
       [.removeCalled containerName] ++
       (if env.removeOk then [] else [.logged "Error removing container"]) ++
       [.scoreReported userId 0 "Test timeout"] ++
       (if env.scoreOk then [] else [.logged "Error updating score"])) ++
    [.logged ("Finish " ++ toString userId)]

/-- `runner`: fetch the submissions (oracle result); on failure log and do
nothing; otherwise spawn one `start_container_runner` per submission
(`envOf i` is submission `i`'s Docker/Canvas environment).  The result is the
per-submission traces. -/
def runner (fetch : Except String (List Submission)) (envOf : Nat → DockerEnv) :
    List (List Event) :=
  match fetch with
  | .error _ => []
  | .ok subs => (subs.enum).map (fun p => startContainerRunner (envOf p.1) p.2.userId)

def isCreateEvent : Event → Bool
  | .createCalled _ => true
  | _ => false

def isReportEvent : Event → Bool
  | .scoreReported _ _ _ => true
  | _ => false

/-- The stop/remove/report calls the timeout path is specified to perform. -/
def isCleanupEvent : Event → Bool
  | .stopCalled _ => true
  | .removeCalled _ => true
  | .scoreReported _ _ _ => true
  | _ => false

/-- An environment in which every external call succeeds and the container
exits before the deadline. -/
def allOkEnv : DockerEnv :=
  ⟨true, true, .finished, true, true, true⟩

/-! ## Shared helper lemmas -/

lemma strData_append (s t : String) : (s ++ t).data = s.data ++ t.data := by
  cases s; cases t; rfl

lemma keys_storeUpdate (name : String) (v : Option Value) (st : Store) :
    (storeUpdate name v st).map Prod.fst = st.map Prod.fst := by
  induction st with
  | nil => rfl
  | cons p rest ih =>
    obtain ⟨k, w⟩ := p
    by_cases h : k = name <;> simpa [storeUpdate, h] using ih

lemma keys_applyVariableCmd (operation name : String) (value : Int) (st : Store) :
    (applyVariableCmd operation name value st).map Prod.fst = st.map Prod.fst := by
  unfold applyVariableCmd
  split
  · split
    · exact keys_storeUpdate ..
    · rfl
  · rfl

lemma lookup_cons {β : Type} (a k : String) (b : β) (es : List (String × β)) :
    List.lookup a ((k, b) :: es) = if a = k then some b else List.lookup a es := by
  by_cases h : a = k
  · subst h; simp [List.lookup]
  · have hb : (a == k) = false := by simpa using h
    simp [List.lookup, hb, h]

lemma storeUpdate_cons (name : String) (v : Option Value) (k : String) (w : Option Value)
    (rest : Store) :
    storeUpdate name v ((k, w) :: rest) =
      (if k = name then (k, v) else (k, w)) :: storeUpdate name v rest := by
  simp only [storeUpdate, List.map_cons]

lemma lookup_storeUpdate_self (name : String) (v : Option Value) (st : Store) (w : Option Value)
    (h : st.lookup name = some w) :
    (storeUpdate name v st).lookup name = some v := by
  induction st with
  | nil => simp [List.lookup] at h
  | cons p rest ih =>
    obtain ⟨k, w'⟩ := p
    rw [storeUpdate_cons]
    by_cases hk : name = k
    · subst hk
      rw [if_pos rfl, lookup_cons, if_pos rfl]
    · rw [if_neg (fun he => hk he.symm), lookup_cons, if_neg hk]
      rw [lookup_cons, if_neg hk] at h
      exact ih h

/-! Definitional step equations for `taskRunAux`, used to rewrite a run one
command at a time. -/

lemma taskStep_nil (label : String) (benv : Nat → Option String)
    (cenv : Nat → Except String (Bool × String)) (i : Nat) (st : Store) :
    taskRunAux label benv cenv [] i st = some (.passed, st) := rfl

lemma taskStep_builtin_substFail (label : String) (benv : Nat → Option String)
    (cenv : Nat → Except String (Bool × String)) (action : String)
    (args : Option (List String)) (abortOnFailure : Option Bool)
    (rest : List Command) (i : Nat) (st : Store)
    (hsub : substArgs st (args.getD []) = none) :
    taskRunAux label benv cenv (.builtin action args abortOnFailure :: rest) i st =
      none := by
  simp only [taskRunAux, hsub]

lemma taskStep_builtin_ok (label : String) (benv : Nat → Option String)
    (cenv : Nat → Except String (Bool × String)) (action : String)
    (args : Option (List String)) (abortOnFailure : Option Bool)
    (rest : List Command) (i : Nat) (st : Store) (sargs : List String)
    (hsub : substArgs st (args.getD []) = some sargs) (hb : benv i = none) :
    taskRunAux label benv cenv (.builtin action args abortOnFailure :: rest) i st =
      taskRunAux label benv cenv rest (i + 1) st := by
  simp only [taskRunAux, hsub, hb]

lemma taskStep_builtin_fail (label : String) (benv : Nat → Option String)
    (cenv : Nat → Except String (Bool × String)) (action : String)
    (args : Option (List String)) (abortOnFailure : Option Bool)
    (rest : List Command) (i : Nat) (st : Store) (sargs : List String) (e : String)
    (hsub : substArgs st (args.getD []) = some sargs) (hb : benv i = some e) :
    taskRunAux label benv cenv (.builtin action args abortOnFailure :: rest) i st =
      if abortOnFailure.getD false then some (.failedErr (abortMsg label e), st)
      else some (.failedOk (failMsg label e), st) := by
  simp only [taskRunAux, hsub, hb]

lemma taskStep_custom_substFail (label : String) (benv : Nat → Option String)
    (cenv : Nat → Except String (Bool × String)) (action : String)
    (args : Option (List String)) (abortOnFailure : Option Bool)
    (rest : List Command) (i : Nat) (st : Store)
    (hsub : substArgs st (args.getD []) = none) :
    taskRunAux label benv cenv (.custom action args abortOnFailure :: rest) i st =
      none := by
  simp only [taskRunAux, hsub]

lemma taskStep_custom_ok (label : String) (benv : Nat → Option String)
    (cenv : Nat → Except String (Bool × String)) (action : String)
    (args : Option (List String)) (abortOnFailure : Option Bool)
    (rest : List Command) (i : Nat) (st : Store) (sargs : List String) (stdout : String)
    (hsub : substArgs st (args.getD []) = some sargs) (hc : cenv i = .ok (true, stdout)) :
    taskRunAux label benv cenv (.custom action args abortOnFailure :: rest) i st =
      taskRunAux label benv cenv rest (i + 1) st := by
  simp only [taskRunAux, hsub, hc, if_true]

lemma taskStep_custom_exitFail (label : String) (benv : Nat → Option String)
    (cenv : Nat → Except String (Bool × String)) (action : String)
    (args : Option (List String)) (abortOnFailure : Option Bool)
    (rest : List Command) (i : Nat) (st : Store) (sargs : List String) (stdout : String)
    (hsub : substArgs st (args.getD []) = some sargs) (hc : cenv i = .ok (false, stdout)) :
    taskRunAux label benv cenv (.custom action args abortOnFailure :: rest) i st =
      if abortOnFailure.getD false then some (.failedErr (abortMsg label stdout), st)
      else some (.failedOk (failMsg label stdout), st) := by
  simp only [taskRunAux, hsub, hc, Bool.false_eq_true, if_false]

lemma taskStep_custom_spawnErr (label : String) (benv : Nat → Option String)
    (cenv : Nat → Except String (Bool × String)) (action : String)
    (args : Option (List String)) (abortOnFailure : Option Bool)
    (rest : List Command) (i : Nat) (st : Store) (sargs : List String) (e : String)
    (hsub : substArgs st (args.getD []) = some sargs) (hc : cenv i = .error e) :
    taskRunAux label benv cenv (.custom action args abortOnFailure :: rest) i st =
      if abortOnFailure.getD false then some (.failedErr (spawnAbortMsg label e), st)
      else some (.failedOk (spawnFailMsg label e), st) := by
  simp only [taskRunAux, hsub, hc]

lemma taskStep_varCmd (label : String) (benv : Nat → Option String)
    (cenv : Nat → Except String (Bool × String)) (operation vname : String)
    (value : Int) (rest : List Command) (i : Nat) (st : Store) :
    taskRunAux label benv cenv (.varCmd operation vname value :: rest) i st =
      taskRunAux label benv cenv rest (i + 1) (applyVariableCmd operation vname value st) :=
  rfl

/-- Running `pre ++ rest` when `pre` completes all its commands without
failure continues into `rest` with the store `pre` produced and the command
index advanced past `pre`. -/
lemma taskRunAux_append (label : String) (benv : Nat → Option String)
    (cenv : Nat → Except String (Bool × String)) (pre rest : List Command) :
    ∀ i st st', taskRunAux label benv cenv pre i st = some (.passed, st') →
      taskRunAux label benv cenv (pre ++ rest) i st =
        taskRunAux label benv cenv rest (i + pre.length) st' := by
  induction pre with
  | nil =>
    intro i st st' h
    rw [taskStep_nil] at h
    simp only [Option.some.injEq, Prod.mk.injEq, true_and] at h
    subst h
    simp
  | cons c pre ih =>
    intro i st st' h
    have harith : i + (pre.length + 1) = i + 1 + pre.length := by omega
    cases c with
    | builtin action args abortOnFailure =>
      rw [List.cons_append]
      cases hsub : substArgs st (args.getD []) with
      | none =>
        rw [taskStep_builtin_substFail _ _ _ _ _ _ _ _ _ hsub] at h
        exact Option.noConfusion h
      | some sargs =>
        cases hb : benv i with
        | none =>
          rw [taskStep_builtin_ok _ _ _ _ _ _ _ _ _ _ hsub hb] at h
          rw [taskStep_builtin_ok _ _ _ _ _ _ _ _ _ _ hsub hb,
            ih (i + 1) st st' h, List.length_cons, harith]
        | some e =>
          rw [taskStep_builtin_fail _ _ _ _ _ _ _ _ _ _ _ hsub hb] at h
          split at h <;> simp at h
    | custom action args abortOnFailure =>
      rw [List.cons_append]
      cases hsub : substArgs st (args.getD []) with
      | none =>
        rw [taskStep_custom_substFail _ _ _ _ _ _ _ _ _ hsub] at h
        exact Option.noConfusion h
      | some sargs =>
        cases hc : cenv i with
        | error e =>
          rw [taskStep_custom_spawnErr _ _ _ _ _ _ _ _ _ _ _ hsub hc] at h
          split at h <;> simp at h
        | ok pr =>
          obtain ⟨success, stdout⟩ := pr
          cases success with
          | false =>
            rw [taskStep_custom_exitFail _ _ _ _ _ _ _ _ _ _ _ hsub hc] at h
            split at h <;> simp at h
          | true =>
            rw [taskStep_custom_ok _ _ _ _ _ _ _ _ _ _ _ hsub hc] at h
            rw [taskStep_custom_ok _ _ _ _ _ _ _ _ _ _ _ hsub hc,
              ih (i + 1) st st' h, List.length_cons, harith]
    | varCmd operation vname value =>
      rw [List.cons_append]
      rw [taskStep_varCmd] at h
      rw [taskStep_varCmd, ih (i + 1) _ st' h, List.length_cons, harith]

/-- A single command that ends the task (does not pass) yields the same
result whatever commands follow it. -/
lemma taskRunAux_single_fail (label : String) (benv : Nat → Option String)
    (cenv : Nat → Except String (Bool × String)) (c : Command) (i : Nat) (st : Store)
    (out : TaskEnd) (st' : Store)
    (h : taskRunAux label benv cenv [c] i st = some (out, st'))
    (hout : out ≠ .passed) (post : List Command) :
    taskRunAux label benv cenv (c :: post) i st = some (out, st') := by
  cases c with
  | builtin action args abortOnFailure =>
    cases hsub : substArgs st (args.getD []) with
    | none =>
      rw [taskStep_builtin_substFail _ _ _ _ _ _ _ _ _ hsub] at h
      exact Option.noConfusion h
    | some sargs =>
      cases hb : benv i with
      | none =>
        rw [taskStep_builtin_ok _ _ _ _ _ _ _ _ _ _ hsub hb, taskStep_nil] at h
        simp only [Option.some.injEq, Prod.mk.injEq] at h
        exact absurd h.1.symm hout
      | some e =>
        rw [taskStep_builtin_fail _ _ _ _ _ _ _ _ _ _ _ hsub hb] at h
        rw [taskStep_builtin_fail _ _ _ _ _ _ _ _ _ _ _ hsub hb]
        exact h
  | custom action args abortOnFailure =>
    cases hsub : substArgs st (args.getD []) with
    | none =>
      rw [taskStep_custom_substFail _ _ _ _ _ _ _ _ _ hsub] at h
      exact Option.noConfusion h
    | some sargs =>
      cases hc : cenv i with
      | error e =>
        rw [taskStep_custom_spawnErr _ _ _ _ _ _ _ _ _ _ _ hsub hc] at h
        rw [taskStep_custom_spawnErr _ _ _ _ _ _ _ _ _ _ _ hsub hc]
        exact h
      | ok pr =>
        obtain ⟨success, stdout⟩ := pr
        cases success with
        | false =>
          rw [taskStep_custom_exitFail _ _ _ _ _ _ _ _ _ _ _ hsub hc] at h
          rw [taskStep_custom_exitFail _ _ _ _ _ _ _ _ _ _ _ hsub hc]
          exact h
        | true =>
          rw [taskStep_custom_ok _ _ _ _ _ _ _ _ _ _ _ hsub hc, taskStep_nil] at h
          simp only [Option.some.injEq, Prod.mk.injEq] at h
          exact absurd h.1.symm hout
  | varCmd operation vname value =>
    rw [taskStep_varCmd, taskStep_nil] at h
    simp only [Option.some.injEq, Prod.mk.injEq] at h
    exact absurd h.1.symm hout

/-- A task run that returns `Ok` with an early-failure message got it from a
builtin failure or a custom non-zero exit (`failMsg`) or from a custom spawn
failure (`spawnFailMsg`). -/
lemma taskRunAux_failedOk_shape (label : String) (benv : Nat → Option String)
    (cenv : Nat → Except String (Bool × String)) :
    ∀ (cmds : List Command) (i : Nat) (st : Store) (m : String) (st' : Store),
      taskRunAux label benv cenv cmds i st = some (.failedOk m, st') →
      (∃ e, m = failMsg label e) ∨ ∃ e, m = spawnFailMsg label e := by
  intro cmds
  induction cmds with
  | nil => intro i st m st' h; rw [taskStep_nil] at h; simp at h
  | cons c rest ih =>
    intro i st m st' h
    cases c with
    | builtin action args abortOnFailure =>
      cases hsub : substArgs st (args.getD []) with
      | none =>
        rw [taskStep_builtin_substFail _ _ _ _ _ _ _ _ _ hsub] at h
        exact Option.noConfusion h
      | some sargs =>
        cases hb : benv i with
        | none =>
          rw [taskStep_builtin_ok _ _ _ _ _ _ _ _ _ _ hsub hb] at h
          exact ih _ _ _ _ h
        | some e =>
          rw [taskStep_builtin_fail _ _ _ _ _ _ _ _ _ _ _ hsub hb] at h
          split at h
          · simp at h
          · simp only [Option.some.injEq, Prod.mk.injEq, TaskEnd.failedOk.injEq] at h
            exact Or.inl ⟨e, h.1.symm⟩
    | custom action args abortOnFailure =>
      cases hsub : substArgs st (args.getD []) with
      | none =>
        rw [taskStep_custom_substFail _ _ _ _ _ _ _ _ _ hsub] at h
        exact Option.noConfusion h
      | some sargs =>
        cases hc : cenv i with
        | error e =>
          rw [taskStep_custom_spawnErr _ _ _ _ _ _ _ _ _ _ _ hsub hc] at h
          split at h
          · simp at h
          · simp only [Option.some.injEq, Prod.mk.injEq, TaskEnd.failedOk.injEq] at h
            exact Or.inr ⟨e, h.1.symm⟩
        | ok pr =>
          obtain ⟨success, stdout⟩ := pr
          cases success with
          | false =>
            rw [taskStep_custom_exitFail _ _ _ _ _ _ _ _ _ _ _ hsub hc] at h
            split at h
            · simp at h
            · simp only [Option.some.injEq, Prod.mk.injEq, TaskEnd.failedOk.injEq] at h
              exact Or.inl ⟨stdout, h.1.symm⟩
          | true =>
            rw [taskStep_custom_ok _ _ _ _ _ _ _ _ _ _ _ hsub hc] at h
            exact ih _ _ _ _ h
    | varCmd operation vname value =>
      rw [taskStep_varCmd] at h
      exact ih _ _ _ _ h

lemma padLeft_failed_data :
    (padLeftStr "Failed" 20).data = List.replicate 14 ' ' ++ "Failed".data := rfl

lemma containsFailed_failMsg (label e : String) :
    containsFailed (failMsg label e) = true := by
  simp only [containsFailed, strContains, decide_eq_true_eq]
  refine ⟨(padRightStr label 10).data ++ " ".data ++ List.replicate 14 ' ',
    "\n".data ++ e.data, ?_⟩
  simp [failMsg, strData_append, padLeft_failed_data, List.append_assoc]

/-! ## Claim theorems -/

/-- C9: `Worker::modify_variable` and the `Variable` command only update
entries already present in the store and never insert a key, so after any
sequence of these operations the key list of the store equals the initial
key list. -/
theorem store_keys_invariant (ops : List StoreOp) (st : Store) :
    (applyStoreOps ops st).map Prod.fst = st.map Prod.fst := by
  induction ops generalizing st with
  | nil => rfl
  | cons op rest ih =>
    have hop : (applyStoreOp op st).map Prod.fst = st.map Prod.fst := by
      cases op with
      | modifyVar name v => exact keys_storeUpdate name (some v) st
      | varAdd operation name value => exact keys_applyVariableCmd operation name value st
    calc (applyStoreOps (op :: rest) st).map Prod.fst
        = (applyStoreOps rest (applyStoreOp op st)).map Prod.fst := rfl
      _ = (applyStoreOp op st).map Prod.fst := ih _
      _ = st.map Prod.fst := hop

/-- C10: `Canvas::update_score` returns whatever response the transport
delivered, without inspecting its status code; it errs only on a
transport-level failure.  A 4xx/5xx rejection is indistinguishable from a
2xx success at the call site. -/
theorem updateScore_status_blind
    (send : String → String → ScoreUpdate → Except String HttpResponse)
    (baseUrl header : String) (submissionId score : Nat) (comment : String) :
    (∀ response,
      send (baseUrl ++ "/" ++ toString submissionId) header ⟨⟨score⟩, ⟨comment⟩⟩ =
          .ok response →
      updateScore send baseUrl header submissionId score comment = .ok response) ∧
    (∀ e,
      send (baseUrl ++ "/" ++ toString submissionId) header ⟨⟨score⟩, ⟨comment⟩⟩ =
          .error e →
      updateScore send baseUrl header submissionId score comment = .error e) := by
  constructor <;> intro x h <;> simp [updateScore, h]

theorem updateScore_status_blind_witness :
    updateScore (fun _ _ _ => .ok ⟨404⟩) "http://c/api" "Bearer k" 9 0 "rejected" =
      .ok ⟨404⟩ :=
  (updateScore_status_blind (fun _ _ _ => .ok ⟨404⟩) "http://c/api" "Bearer k" 9 0
    "rejected").1 ⟨404⟩ rfl

/-- C6: a `Variable` command with operation `"+"` adds its delta to an
existing integer-valued variable in place; when the variable is absent or not
integer-valued the store is left unchanged; in every case the command raises
no error and the task continues with the following commands. -/
theorem variableOp_add_semantics (st : Store) (name : String) (delta : Int) :
    (∀ n, st.lookup name = some (some (.integer n)) →
      applyVariableCmd "+" name delta st =
        storeUpdate name (some (.integer (n + delta))) st ∧
      (applyVariableCmd "+" name delta st).lookup name =
        some (some (.integer (n + delta)))) ∧
    ((∀ n, st.lookup name ≠ some (some (.integer n))) →
      applyVariableCmd "+" name delta st = st) ∧
    (∀ label benv cenv i rest,
      taskRunAux label benv cenv (.varCmd "+" name delta :: rest) i st =
        taskRunAux label benv cenv rest (i + 1) (applyVariableCmd "+" name delta st)) := by
  refine ⟨?_, ?_, fun _ _ _ _ _ => rfl⟩
  · intro n h
    have heq : applyVariableCmd "+" name delta st =
        storeUpdate name (some (.integer (n + delta))) st := by
      simp [applyVariableCmd, h]
    exact ⟨heq, by rw [heq]; exact lookup_storeUpdate_self _ _ _ _ h⟩
  · intro hn
    unfold applyVariableCmd
    rw [if_pos rfl]
    split
    · next n heq => exact absurd heq (hn n)
    · rfl

theorem variableOp_add_witness :
    applyVariableCmd "+" "x" 2 [("x", some (.integer 3))] = [("x", some (.integer 5))] ∧
    applyVariableCmd "+" "y" 2 [("x", some (.str "s"))] = [("x", some (.str "s"))] := by
  constructor
  · have h := ((variableOp_add_semantics [("x", some (.integer 3))] "x" 2).1 3 rfl).1
    rw [h]; rfl
  · exact (variableOp_add_semantics [("x", some (.str "s"))] "y" 2).2.1
      (fun n h => by rw [show List.lookup "y" [("x", some (Value.str "s"))] = none from rfl] at h; cases h)

/-- C2 (code bug): when container creation fails, `start_container_runner`
reports the startup-error score but does **not** return — the missing `return`
(present in the start-failure arm) lets it fall through and still call
`start_container`, and when that fails too it reports a second score. -/
theorem createFailure_not_terminal :
    startContainerRunner ⟨false, false, .finished, true, true, true⟩ 5 =
      [.logged "Start testing for user ID: 5",
       .createCalled "lab3-5",
       .scoreReported 5 0 "Test environment startup error",
       .logged "Container lab3-5 created",
       .startCalled "lab3-5",
       .scoreReported 5 0 "Failed to start container"] := by
  rfl

/-- C3 (counterexample): a submission with no attachment data still gets
exactly one sandbox-creation call and no score report at all — in particular
no missing-attachment comment. -/
theorem noAttachment_counterexample :
    runner (.ok [⟨1, "submitted", none⟩]) (fun _ => allOkEnv) =
        [startContainerRunner allOkEnv 1] ∧
    ((startContainerRunner allOkEnv 1).filter isCreateEvent).length = 1 ∧
    (startContainerRunner allOkEnv 1).filter isReportEvent = [] := by
  exact ⟨rfl, rfl, rfl⟩

/-- C3 (amended): the daemon never inspects attachments — every submission
handed to `start_container_runner` gets exactly one sandbox-creation call, and
no score report ever names a missing attachment (the only comments issued are
the startup-error, start-failure and timeout ones). -/
theorem create_always_called (env : DockerEnv) (userId : Nat) :
    ((startContainerRunner env userId).filter isCreateEvent).length = 1 ∧
    (startContainerRunner env userId).filter isReportEvent ⊆
      [.scoreReported userId 0 "Test environment startup error",
       .scoreReported userId 0 "Failed to start container",
       .scoreReported userId 0 "Test timeout"] := by
  obtain ⟨co, so, w, sp, rm, sc⟩ := env
  constructor
  · cases co <;> cases so <;> cases w <;> cases sp <;> cases rm <;> cases sc <;> rfl
  · cases co <;> cases so <;> cases w <;> cases sp <;> cases rm <;> cases sc <;>
      simp [startContainerRunner, List.subset_def, isReportEvent]

/-- C5: with the sandbox created and started, a timed-out wait performs
exactly one stop, one remove and one `(0, "Test timeout")` report, in that
order (regardless of whether stop/remove/report themselves fail), with a
stop/remove failure each independently logged; a wait error distinct from
timeout is logged only and no score report is issued. -/
theorem sandboxTimeout_cleanup (env : DockerEnv) (userId : Nat)
    (hcreate : env.createOk = true) (hstart : env.startOk = true) :
    (env.wait = .timedOut →
      (startContainerRunner env userId).filter isCleanupEvent =
        [.stopCalled ("lab3-" ++ toString userId),
         .removeCalled ("lab3-" ++ toString userId),
         .scoreReported userId 0 "Test timeout"] ∧
      (env.stopOk = false →
        Event.logged "Error stopping container" ∈ startContainerRunner env userId) ∧
      (env.removeOk = false →
        Event.logged "Error removing container" ∈ startContainerRunner env userId)) ∧
    (∀ e, env.wait = .waitErr e →
      (startContainerRunner env userId).filter isReportEvent = [] ∧
      Event.logged ("Error waiting for container: " ++ e) ∈ startContainerRunner env userId) := by
  constructor
  · intro hw
    refine ⟨?_, ?_, ?_⟩
    · simp [startContainerRunner, hcreate, hstart, hw, isCleanupEvent, apply_ite
        (List.filter isCleanupEvent)]
    · intro hsp
      simp [startContainerRunner, hcreate, hstart, hw, hsp]
    · intro hrm
      simp [startContainerRunner, hcreate, hstart, hw, hrm]
  · intro e hw
    constructor
    · simp [startContainerRunner, hcreate, hstart, hw, isReportEvent, apply_ite
        (List.filter isReportEvent)]
    · simp [startContainerRunner, hcreate, hstart, hw]

theorem sandboxTimeout_cleanup_witness :
    (startContainerRunner ⟨true, true, .timedOut, false, true, true⟩ 7).filter
        isCleanupEvent =
      [.stopCalled ("lab3-" ++ toString 7),
       .removeCalled ("lab3-" ++ toString 7),
       .scoreReported 7 0 "Test timeout"] ∧
    Event.logged "Error stopping container" ∈
      startContainerRunner ⟨true, true, .timedOut, false, true, true⟩ 7 := by
  have h := (sandboxTimeout_cleanup ⟨true, true, .timedOut, false, true, true⟩ 7
    rfl rfl).1 rfl
  exact ⟨h.1, h.2.1 rfl⟩

/-- C8: the line-diff builtin, on readable files and a threshold string that
parses, succeeds exactly when the diff count is at or below the threshold, and
fails with a message reporting the count and the threshold when the count
strictly exceeds it. -/
theorem diffFileBuiltin_threshold (fs : String → Option (List String))
    (base submission count : String) (old new : List String) (threshold : Nat)
    (hbase : fs base = some old) (hsub : fs submission = some new)
    (hcount : parseUsize count = some threshold) :
    (diffFileBuiltin fs [base, submission, count] = .ok () ↔
      diffFile old new ≤ threshold) ∧
    (diffFile old new > threshold →
      diffFileBuiltin fs [base, submission, count] =
        .error ("Diff count " ++ toString (diffFile old new) ++
          " is greater than " ++ count)) := by
  constructor
  · by_cases hgt : diffFile old new > threshold
    · simp [diffFileBuiltin, hbase, hsub, hcount, hgt]
    · simp [diffFileBuiltin, hbase, hsub, hcount, hgt]
      omega
  · intro hgt
    simp [diffFileBuiltin, hbase, hsub, hcount, hgt]

theorem diffFileBuiltin_threshold_witness :
    diffFileBuiltin
        (fun p => if p = "base.txt" then some ["a", "b", "c"]
          else if p = "sub.txt" then some ["a", "x"] else none)
        ["base.txt", "sub.txt", "2"] =
      .error "Diff count 3 is greater than 2" ∧
    diffFileBuiltin
        (fun p => if p = "base.txt" then some ["a", "b", "c"]
          else if p = "sub.txt" then some ["a", "x"] else none)
        ["base.txt", "sub.txt", "3"] = .ok () := by
  constructor
  · have h := (diffFileBuiltin_threshold
      (fun p => if p = "base.txt" then some ["a", "b", "c"]
        else if p = "sub.txt" then some ["a", "x"] else none)
      "base.txt" "sub.txt" "2" ["a", "b", "c"] ["a", "x"] 2
      (by decide) (by decide) (by decide)).2 (by decide)
    rw [h]
    rfl
  · exact (diffFileBuiltin_threshold
      (fun p => if p = "base.txt" then some ["a", "b", "c"]
        else if p = "sub.txt" then some ["a", "x"] else none)
      "base.txt" "sub.txt" "3" ["a", "b", "c"] ["a", "x"] 3
      (by decide) (by decide) (by decide)).1.mpr (by decide)

lemma strAppend_assoc (a b c : String) : a ++ b ++ c = a ++ (b ++ c) := by
  cases a; cases b; cases c
  exact congrArg String.mk (List.append_assoc ..)

lemma amp_token_split (a tok : String) :
    a ++ "&access_token=" ++ tok = a ++ "&" ++ ("access_token=" ++ tok) := by
  rw [strAppend_assoc a "&", ← strAppend_assoc "&" "access_token=" tok,
    show ("&" : String) ++ "access_token=" = "&access_token=" from rfl,
    ← strAppend_assoc a "&access_token=" tok]

lemma qmark_token_split (a tok : String) :
    a ++ "?access_token=" ++ tok = a ++ "?" ++ ("access_token=" ++ tok) := by
  rw [strAppend_assoc a "?", ← strAppend_assoc "?" "access_token=" tok,
    show ("?" : String) ++ "access_token=" = "?access_token=" from rfl,
    ← strAppend_assoc a "?access_token=" tok]

lemma getNextLink_suffix (linkHeader : Option String) (accessToken s : String)
    (h : getNextLink linkHeader accessToken = some s) :
    ∃ u, s = u ++ ("access_token=" ++ accessToken) := by
  unfold getNextLink at h
  split at h
  · cases h
  · split at h
    · cases h
    · split at h
      · cases h
      · split at h
        · have hs := Option.some_inj.mp h
          exact ⟨_ ++ "&", by rw [← hs, amp_token_split]⟩
        · have hs := Option.some_inj.mp h
          exact ⟨_ ++ "?", by rw [← hs, qmark_token_split]⟩

lemma getAllSubmissionsAux_fst_cons (header url : String) (page : PageResponse)
    (rest : List PageResponse) :
    ∃ tl, (getAllSubmissionsAux header url (page :: rest)).1 = (url, header) :: tl := by
  unfold getAllSubmissionsAux
  cases getNextLink page.linkHeader header <;> exact ⟨_, rfl⟩

lemma getAllSubmissionsAux_cons_none (header url : String) (page : PageResponse)
    (rest : List PageResponse) (h : getNextLink page.linkHeader header = none) :
    getAllSubmissionsAux header url (page :: rest) =
      ([(url, header)], page.body.filter (fun s => s.workflowState == "submitted")) := by
  simp only [getAllSubmissionsAux, h]

lemma getAllSubmissionsAux_cons_some (header url nextUrl : String) (page : PageResponse)
    (rest : List PageResponse) (h : getNextLink page.linkHeader header = some nextUrl) :
    getAllSubmissionsAux header url (page :: rest) =
      ((url, header) :: (getAllSubmissionsAux header nextUrl rest).1,
       page.body.filter (fun s => s.workflowState == "submitted") ++
         (getAllSubmissionsAux header nextUrl rest).2) := by
  conv_lhs => rw [getAllSubmissionsAux]
  rw [h]

/-- C7 (counterexample): a submission appearing on two linked pages appears
twice in the result — `get_all_submissions` concatenates the filtered pages
without de-duplication. -/
theorem pagination_no_dedup :
    (getAllSubmissions "http://base" "Bearer k"
      [⟨some "<http://host/p2>; rel=\"next\"", [⟨1, "submitted", none⟩]⟩,
       ⟨none, [⟨1, "submitted", none⟩]⟩]).2 =
      [⟨1, "submitted", none⟩, ⟨1, "submitted", none⟩] ∧
    ¬ ((getAllSubmissions "http://base" "Bearer k"
      [⟨some "<http://host/p2>; rel=\"next\"", [⟨1, "submitted", none⟩]⟩,
       ⟨none, [⟨1, "submitted", none⟩]⟩]).2).Nodup := by
  refine ⟨rfl, ?_⟩
  rw [show (getAllSubmissions "http://base" "Bearer k"
      [⟨some "<http://host/p2>; rel=\"next\"", [⟨1, "submitted", none⟩]⟩,
       ⟨none, [⟨1, "submitted", none⟩]⟩]).2 =
      [⟨1, "submitted", none⟩, ⟨1, "submitted", none⟩] from rfl]
  decide

/-- C7 (amended): over a well-formed chain of linked pages, the fetch yields
the concatenation of every page's workflow-state-filtered body (duplicates
retained — no de-duplication), issues exactly one request per page, attaches
the bearer credential header to every request, and appends the
`access_token` credential to every followed continuation URL. -/
theorem pagination_filter_concat (header : String) (pages : List PageResponse) :
    ∀ url, pageChain header pages = true → pages ≠ [] →
    ((getAllSubmissionsAux header url pages).2 =
        (pages.map
          (fun p => p.body.filter (fun s => s.workflowState == "submitted"))).flatten ∧
      (getAllSubmissionsAux header url pages).1.length = pages.length ∧
      (∀ r ∈ (getAllSubmissionsAux header url pages).1, r.2 = header) ∧
      (∀ r ∈ (getAllSubmissionsAux header url pages).1.tail,
        ∃ u, r.1 = u ++ ("access_token=" ++ header))) := by
  induction pages with
  | nil => intro url _ hne; exact absurd rfl hne
  | cons p rest ih =>
    intro url hchain _
    cases rest with
    | nil =>
      have hnone : getNextLink p.linkHeader header = none := by
        simpa [pageChain, Option.isNone_iff_eq_none] using hchain
      rw [getAllSubmissionsAux_cons_none header url p [] hnone]
      refine ⟨?_, ?_, ?_, ?_⟩ <;> simp
    | cons q rest2 =>
      have hchain2 : (getNextLink p.linkHeader header).isSome = true ∧
          pageChain header (q :: rest2) = true := by
        simpa [pageChain] using hchain
      obtain ⟨nextUrl, hnext⟩ := Option.isSome_iff_exists.mp hchain2.1
      obtain ⟨h1, h2, h3, h4⟩ := ih nextUrl hchain2.2 (by simp)
      obtain ⟨tl, htl⟩ := getAllSubmissionsAux_fst_cons header nextUrl q rest2
      rw [getAllSubmissionsAux_cons_some header url nextUrl p (q :: rest2) hnext]
      refine ⟨?_, ?_, ?_, ?_⟩
      · simp [h1]
      · simp [h2]
      · intro r hr
        rcases List.mem_cons.mp hr with rfl | hr
        · rfl
        · exact h3 r hr
      · intro r hr
        simp only [List.tail_cons] at hr
        rw [htl] at hr
        rcases List.mem_cons.mp hr with rfl | hr
        · exact getNextLink_suffix p.linkHeader header nextUrl hnext
        · exact h4 r (by rw [htl]; simpa using hr)

theorem pagination_filter_concat_witness :
    (getAllSubmissionsAux "Bearer k" "http://base"
      [⟨some "<http://host/p2>; rel=\"next\"",
        [⟨1, "submitted", none⟩, ⟨2, "graded", none⟩]⟩,
       ⟨none, [⟨3, "submitted", none⟩]⟩]).2 =
      [⟨1, "submitted", none⟩, ⟨3, "submitted", none⟩] ∧
    (getAllSubmissionsAux "Bearer k" "http://base"
      [⟨some "<http://host/p2>; rel=\"next\"",
        [⟨1, "submitted", none⟩, ⟨2, "graded", none⟩]⟩,
       ⟨none, [⟨3, "submitted", none⟩]⟩]).1.length = 2 := by
  have h := pagination_filter_concat "Bearer k"
    [⟨some "<http://host/p2>; rel=\"next\"",
      [⟨1, "submitted", none⟩, ⟨2, "graded", none⟩]⟩,
     ⟨none, [⟨3, "submitted", none⟩]⟩] "http://base" (by decide) (by simp)
  exact ⟨h.1.trans (by decide), h.2.1⟩

theorem create_always_called_witness :
    Event.scoreReported 5 0 "Test environment startup error" ∈
      ([.scoreReported 5 0 "Test environment startup error",
        .scoreReported 5 0 "Failed to start container",
        .scoreReported 5 0 "Test timeout"] : List Event) :=
  (create_always_called ⟨false, false, .finished, true, true, true⟩ 5).2 (by decide)

/-- C1 (amended): the first failing Builtin or Custom command ends the task
immediately — the result does not depend on the commands after it.  With
`abort_on_failure` true the task returns an error and the worker records it
and runs no subsequent task; with it false or absent the task returns success
and the worker proceeds to the next task, the success message embedding a
`Failed` status — except for a custom command that fails to spawn, whose
message reads `<label> execution failed due to: <error>` instead. -/
theorem task_failure_flow
    (name : String) (benv : Nat → Option String)
    (cenv : Nat → Except String (Bool × String))
    (st st1 st2 : Store) (pre post : List Command) (c : Command) (out : TaskEnd)
    (hpre : taskRunAux ("[" ++ name ++ "]") benv cenv pre 0 st = some (.passed, st1))
    (hc : taskRunAux ("[" ++ name ++ "]") benv cenv [c] pre.length st1 = some (out, st2))
    (hout : out ≠ .passed) :
    taskRunAux ("[" ++ name ++ "]") benv cenv (pre ++ c :: post) 0 st = some (out, st2) ∧
    (∀ e, out = .failedErr e →
      ∀ envs ts j, envs j = (benv, cenv) →
        workerRunAux envs ((name, pre ++ c :: post) :: ts) j st =
          some ([(name, e)], st2)) ∧
    (∀ m, out = .failedOk m →
      ((∃ e, m = failMsg ("[" ++ name ++ "]") e ∧ containsFailed m = true) ∨
        ∃ e, m = spawnFailMsg ("[" ++ name ++ "]") e) ∧
      ∀ envs ts j, envs j = (benv, cenv) →
        workerRunAux envs ((name, pre ++ c :: post) :: ts) j st =
          match workerRunAux envs ts (j + 1) st2 with
          | none => none
          | some (results, st3) => some ((name, m) :: results, st3)) := by
  have hmain : taskRunAux ("[" ++ name ++ "]") benv cenv (pre ++ c :: post) 0 st =
      some (out, st2) := by
    rw [taskRunAux_append _ _ _ pre (c :: post) 0 st st1 hpre]
    have := taskRunAux_single_fail _ _ _ c pre.length st1 out st2 hc hout post
    simpa using this
  refine ⟨hmain, ?_, ?_⟩
  · intro e he envs ts j henv
    subst he
    have htask : taskRun name benv cenv (pre ++ c :: post) st =
        some (.error e, st2) := by
      unfold taskRun
      rw [hmain]
      rfl
    simp only [workerRunAux, henv, htask]
  · intro m hm
    subst hm
    constructor
    · rcases taskRunAux_failedOk_shape _ _ _ [c] pre.length st1 m st2 hc with
        ⟨e, he⟩ | ⟨e, he⟩
      · exact Or.inl ⟨e, he, by rw [he]; exact containsFailed_failMsg _ _⟩
      · exact Or.inr ⟨e, he⟩
    · intro envs ts j henv
      have htask : taskRun name benv cenv (pre ++ c :: post) st =
          some (.ok m, st2) := by
        unfold taskRun
        rw [hmain]
        rfl
      simp only [workerRunAux, henv, htask]

theorem task_failure_flow_witness :
    taskRunAux ("[" ++ "t" ++ "]") (fun _ => some "boom") (fun _ => .error "x")
        [Command.builtin "a" none (some true), Command.builtin "b" none none] 0 [] =
      some (.failedErr (abortMsg ("[" ++ "t" ++ "]") "boom"), []) :=
  (task_failure_flow "t" (fun _ => some "boom") (fun _ => .error "x")
    [] [] [] [] [Command.builtin "b" none none]
    (Command.builtin "a" none (some true))
    (.failedErr (abortMsg ("[" ++ "t" ++ "]") "boom"))
    rfl rfl (fun h => TaskEnd.noConfusion h)).1

/-- C1 (counterexample): a Custom command that fails to spawn, with
`abort_on_failure` false, makes `Task::run` return success whose message does
**not** embed a `Failed` status — it reads `execution failed due to: ...`. -/
theorem customSpawnFailure_message_lacks_failed :
    taskRun "t" (fun _ => none) (fun _ => .error "No such file")
        [Command.custom "foo" none none] [] =
      some (.ok "[t] execution failed due to: No such file\n", []) ∧
    containsFailed "[t] execution failed due to: No such file\n" = false := by
  exact ⟨rfl, by decide⟩

/-- C4: an argument `var::NAME` is replaced before dispatch by the stringified
value of `NAME` with quote characters trimmed; an undeclared or unset `NAME`
is a panic (`none`) that aborts the task run and the whole worker run, not
just the current command. -/
theorem variable_substitution_fatal (st : Store) (name arg : String)
    (harg : arg.data = 'v' :: 'a' :: 'r' :: ':' :: ':' :: name.data)
    (hname : removeMarker name.data = name.data) :
    (∀ v, st.lookup name = some (some v) →
      substArg st arg = some (trimQuotes (valueToString v))) ∧
    (st.lookup name = none → substArg st arg = none) ∧
    (st.lookup name = some none → substArg st arg = none) ∧
    (st.lookup name = none →
      ∀ label benv cenv action abortOnFailure post i,
        taskRunAux label benv cenv
          (.builtin action (some [arg]) abortOnFailure :: post) i st = none) ∧
    (st.lookup name = none →
      ∀ envs nm action abortOnFailure post ts j,
        workerRunAux envs
          ((nm, .builtin action (some [arg]) abortOnFailure :: post) :: ts) j st =
          none) := by
  have hmark : hasVarMarker arg = true := by
    unfold hasVarMarker
    rw [harg]
    rfl
  have hrm : String.mk (removeMarker arg.data) = name := by
    rw [harg]
    show String.mk (removeMarker name.data) = name
    rw [hname]
  have hsubstNone : st.lookup name = none → substArg st arg = none := fun hnone => by
    simp [substArg, hmark, hrm, hnone]
  have hauxNone : st.lookup name = none →
      ∀ label benv cenv action abortOnFailure post i,
        taskRunAux label benv cenv
          (.builtin action (some [arg]) abortOnFailure :: post) i st = none := by
    intro hnone label benv cenv action abortOnFailure post i
    have hsub : substArgs st [arg] = none := by
      simp [substArgs, hsubstNone hnone]
    exact taskStep_builtin_substFail _ _ _ _ _ _ _ _ _ (by simpa using hsub)
  refine ⟨?_, hsubstNone, ?_, hauxNone, ?_⟩
  · intro v hv
    simp [substArg, hmark, hrm, hv]
  · intro hsome
    simp [substArg, hmark, hrm, hsome]
  · intro hnone envs nm action abortOnFailure post ts j
    have htask : taskRun nm (envs j).1 (envs j).2
        (.builtin action (some [arg]) abortOnFailure :: post) st = none := by
      unfold taskRun
      rw [hauxNone hnone _ _ _ _ _ _ _]
    simp only [workerRunAux, htask]

theorem variable_substitution_witness :
    substArg [("count", some (.integer 5))] "var::count" = some "5" ∧
    substArg [] "var::count" = none := by
  have h1 := (variable_substitution_fatal [("count", some (.integer 5))] "count"
    "var::count" rfl rfl).1 (.integer 5) rfl
  have h2 := (variable_substitution_fatal [] "count" "var::count" rfl rfl).2.1 rfl
  exact ⟨h1.trans (by decide), h2⟩

end Canvasbot
